import Mathlib

/-! cloud-credential-operator: pod identity selectors and the CredentialsRequest types

A shallow embedding of

* `pkg/operator/podidentity/awspodidentitywebhook.go`
* `pkg/operator/podidentity/azurepodidentitywebhook.go`
* `pkg/apis/cloudcredential/v1/types_credentialsrequest.go`

Go code with effects is written in state-passing style: a function that may
talk to the cluster takes the `World` before the call and returns its result
together with the `World` after it.  A Go call either returns a value or
panics; `Result` records which.  A Go pointer is an `Option`, with `none` for
nil; a Go slice or map is an `Option` of a list, so that nil and empty are
told apart.  Go strings are taken to be valid Unicode text.

What the code calls but the repository does not contain (client-go,
`encoding/json`, the Kubernetes API types) is described where it is used:
the cluster and the client in the first section, the JSON rules and the
external types as the parameter `External` in the third.
-/

namespace CloudCredential

/-! ## The surroundings of the program: process environment, cluster, client -/

/-- The process environment: the value of each variable that is set. -/
abbrev Environ := String → Option String

/-- Go `os.Getenv`: the value of the variable, empty when it is not set. -/
def os.Getenv (env : Environ) (key : String) : String :=
  match env key with
  | some v => v
  | none => ""

/-- Go `os.Setenv`, on the environment it leaves behind. -/
def os.Setenv (env : Environ) (key value : String) : Environ :=
  fun k => if k = key then some value else env k

/-- Go `os.Unsetenv`, on the environment it leaves behind. -/
def os.Unsetenv (env : Environ) (key : String) : Environ :=
  fun k => if k = key then none else env k

/-- A Go byte slice. -/
abbrev Bytes := List Nat

/-- A Go `map[string][]byte`: `none` is the nil map, `some []` the empty map. -/
abbrev ByteMap := Option (List (String × Bytes))

/-- The `ok` of Go `_, ok := m[key]`: whether the key is in the map.
A nil map has no keys. -/
def ByteMap.hasKey (m : ByteMap) (key : String) : Bool :=
  match m with
  | none => false
  | some entries => entries.any (fun e => e.1 == key)

/-- The keys of a map, in the order of the entries. A nil map has none. -/
def ByteMap.keys (m : ByteMap) : List String :=
  match m with
  | none => []
  | some entries => entries.map Prod.fst

/-- The part of a `corev1.Secret` that the selectors read. -/
structure Secret where
  Data : ByteMap

/-- The errors with which a request to the API server can come back. -/
inductive APIError where
  | notFound
  | forbidden
  | transport (msg : String)
  | other (code : Nat) (msg : String)
deriving DecidableEq, Repr

/-- A request sent to the API server. -/
inductive Request where
  | get (resource ns name : String)
  | create (resource ns name : String)
  | update (resource ns name : String)
  | delete (resource ns name : String)
deriving DecidableEq, Repr

/-- Whether a request only reads. -/
def Request.isRead : Request → Bool
  | .get _ _ _ => true
  | _ => false

/-- The cluster as the program sees it: the secrets stored in it, by
namespace and name, and the requests it has been sent so far. -/
structure World where
  secrets : String → String → Option Secret
  requests : List Request

/-- A `kubernetes.Clientset`: `fault` is `none` for a client whose requests
reach the API server and are authorised, and `some e` for a client whose
requests come back with `e` (an unreachable cluster, missing permissions). -/
structure Clientset where
  fault : Option APIError

/-- How a Go call ends: it returns a value, or it panics. -/
inductive Result (α : Type) where
  | returned (value : α)
  | panicked
deriving DecidableEq, Repr

/-- The call `clientSet.CoreV1().Secrets(ns).Get(ctx, name, GetOptions{})` of
client-go on a non-nil client: one `get` request is sent; it comes back with
the client's fault if it has one, with the stored secret if there is one, and
with a not-found error otherwise. The cluster's contents are not touched. -/
def Clientset.getSecret (c : Clientset) (ns name : String) (w : World) :
    Except APIError Secret × World :=
  let w' : World := { w with requests := w.requests ++ [Request.get "secrets" ns name] }
  match c.fault with
  | some e => (.error e, w')
  | none =>
    match w.secrets ns name with
    | some s => (.ok s, w')
    | none => (.error APIError.notFound, w')

/-! ## `pkg/operator/podidentity` -/

/-- The Go type `AwsPodIdentity struct {}`. -/
structure AwsPodIdentity where
deriving DecidableEq, Repr

/-- The Go type `AzurePodIdentity struct {}`. -/
structure AzurePodIdentity where
deriving DecidableEq, Repr

/-- Go `AwsPodIdentity.ShouldBeDeployed`: `return true`. The pointer
`clientSet` (`none` is nil) and the namespace are not used. -/
def AwsPodIdentity.ShouldBeDeployed (_a : AwsPodIdentity) (_clientSet : Option Clientset)
    (_ns : String) (w : World) : Result Bool × World :=
  (.returned true, w)

/-- Go `AwsPodIdentity.Deployment`. -/
def AwsPodIdentity.Deployment (_a : AwsPodIdentity) : String :=
  "v4.1.0/aws-pod-identity-webhook/deployment.yaml"

/-- Go `AwsPodIdentity.GetImagePullSpec`, with the process environment made
an argument. -/
def AwsPodIdentity.GetImagePullSpec (_a : AwsPodIdentity) (env : Environ) : String :=
  os.Getenv env "AWS_POD_IDENTITY_WEBHOOK_IMAGE"

/-- Go `AzurePodIdentity.ShouldBeDeployed`. A nil `clientSet` is dereferenced
by `clientSet.CoreV1()` before any request is sent, which panics. -/
def AzurePodIdentity.ShouldBeDeployed (_a : AzurePodIdentity) (clientSet : Option Clientset)
    (ns : String) (w : World) : Result Bool × World :=
  match clientSet with
  | none => (.panicked, w)
  | some c =>
    match c.getSecret ns "azure-credentials" w with
    | (.error _, w') => (.returned false, w')
    | (.ok secret, w') => (.returned (secret.Data.hasKey "azure_tenant_id"), w')

/-- Go `AzurePodIdentity.Deployment`. -/
def AzurePodIdentity.Deployment (_a : AzurePodIdentity) : String :=
  "v4.1.0/azure-pod-identity-webhook/deployment.yaml"

/-- Go `AzurePodIdentity.GetImagePullSpec`, with the process environment made
an argument. -/
def AzurePodIdentity.GetImagePullSpec (_a : AzurePodIdentity) (env : Environ) : String :=
  os.Getenv env "AZURE_POD_IDENTITY_WEBHOOK_IMAGE"

/-- A world with no secrets, to which no request has been sent. -/
def emptyWorld : World :=
  { secrets := fun _ _ => none, requests := [] }

/-- A world whose only secret is `azure-credentials` in namespace `ns`, with
the given data. -/
def worldWithAzureSecret (ns : String) (data : ByteMap) : World :=
  { secrets := fun n name =>
      if n = ns ∧ name = "azure-credentials" then some { Data := data } else none,
    requests := [] }

/-! ## JSON documents and the rules of Go's `encoding/json` used below -/

/-- A JSON document. -/
inductive JSON where
  | null
  | bool (b : Bool)
  | number (n : Int)
  | string (s : String)
  | array (items : List JSON)
  | object (members : List (String × JSON))

/-- Whether a document is the literal `null`. -/
def JSON.isNull : JSON → Bool
  | .null => true
  | _ => false

/-- The member names of an object, in order; other documents have none. -/
def JSON.memberNames : JSON → List String
  | .object members => members.map Prod.fst
  | _ => []

/-- A string field tagged `omitempty`: left out when the string is empty. -/
def omitEmptyString (name : String) (s : String) : List (String × JSON) :=
  if s = "" then [] else [(name, JSON.string s)]

/-- A pointer field tagged `omitempty`: left out when the pointer is nil,
otherwise the encoding of what it points to. -/
def omitEmptyPointer {α : Type} (name : String) (encode : α → JSON) (p : Option α) :
    List (String × JSON) :=
  match p with
  | none => []
  | some v => [(name, encode v)]

/-- A slice field tagged `omitempty`: left out when the slice has length
zero, be it nil (`none`) or empty (`some []`), otherwise an array. -/
def omitEmptySlice {α : Type} (name : String) (encode : α → JSON) (s : Option (List α)) :
    List (String × JSON) :=
  match s with
  | none => []
  | some [] => []
  | some (x :: xs) => [(name, JSON.array ((x :: xs).map encode))]

/-- Decoding into a string field that starts empty: an absent member and
`null` leave it empty, a string sets it, anything else is an error. -/
def decodeString : Option JSON → Option String
  | none => some ""
  | some .null => some ""
  | some (.string s) => some s
  | some _ => none

/-- Decoding into a bool field that starts false. -/
def decodeBool : Option JSON → Option Bool
  | none => some false
  | some .null => some false
  | some (.bool b) => some b
  | some _ => none

/-- Decoding into an `int64` field that starts at zero: a number outside the
range of `int64` is an error. -/
def decodeInt64 : Option JSON → Option Int
  | none => some 0
  | some .null => some 0
  | some (.number n) => if -(2 ^ 63) ≤ n ∧ n < 2 ^ 63 then some n else none
  | some _ => none

/-- Decoding into a pointer field that starts nil: an absent member and `null`
leave it nil, anything else is decoded into a fresh value. -/
def decodePointer {α : Type} (decode : JSON → Option α) : Option JSON → Option (Option α)
  | none => some none
  | some .null => some none
  | some j => (decode j).map some

/-- Decoding the items of an array in order; the first error ends it. -/
def decodeItems {α : Type} (decode : JSON → Option α) : List JSON → Option (List α)
  | [] => some []
  | j :: rest =>
    match decode j, decodeItems decode rest with
    | some a, some others => some (a :: others)
    | _, _ => none

/-- Decoding into a slice field that starts nil: an absent member and `null`
leave it nil, an array gives a non-nil slice of its items. -/
def decodeSlice {α : Type} (decode : JSON → Option α) : Option JSON → Option (Option (List α))
  | none => some none
  | some .null => some none
  | some (.array items) => (decodeItems decode items).map some
  | some _ => none

/-- Decoding into a field that holds a value of a type declared elsewhere: an
absent member leaves the zero value, a present one goes to the decoder of the
type. -/
def decodeValue {α : Type} (zero : α) (decode : JSON → Option α) : Option JSON → Option α
  | none => some zero
  | some j => decode j

/-- The types of Kubernetes libraries that the CredentialsRequest types use but
the repository does not declare (`metav1.ObjectMeta`, `corev1.ObjectReference`,
`runtime.RawExtension`, `metav1.Time`), each with its Go zero value and the
way it is written to and read from JSON. They are parameters of everything
below. -/
structure External where
  ObjectMeta : Type
  ObjectReference : Type
  RawExtension : Type
  Time : Type
  zeroObjectMeta : ObjectMeta
  zeroObjectReference : ObjectReference
  zeroTime : Time
  encodeObjectMeta : ObjectMeta → JSON
  decodeObjectMeta : JSON → Option ObjectMeta
  encodeObjectReference : ObjectReference → JSON
  decodeObjectReference : JSON → Option ObjectReference
  encodeRawExtension : RawExtension → JSON
  decodeRawExtension : JSON → Option RawExtension
  encodeTime : Time → JSON
  decodeTime : JSON → Option Time

/-! ## `pkg/apis/cloudcredential/v1` -/

/-- Go `FinalizerDeprovision`. -/
def FinalizerDeprovision : String := "cloudcredential.openshift.io/deprovision"

/-- Go `AnnotationCredentialsRequest`. -/
def AnnotationCredentialsRequest : String := "cloudcredential.openshift.io/credentials-request"

/-- Go `AnnotationAWSPolicyLastApplied`. -/
def AnnotationAWSPolicyLastApplied : String :=
  "cloudcredential.openshift.io/aws-policy-last-applied"

/-- Go `CloudCredOperatorNamespace`. -/
def CloudCredOperatorNamespace : String := "openshift-cloud-credential-operator"

/-- Go `type CredentialsRequestConditionType string`. -/
abbrev CredentialsRequestConditionType := String

/-- Go `InsufficientCloudCredentials`. -/
def InsufficientCloudCredentials : CredentialsRequestConditionType := "InsufficientCloudCreds"

/-- Go `MissingTargetNamespace`. -/
def MissingTargetNamespace : CredentialsRequestConditionType := "MissingTargetNamespace"

/-- Go `CredentialsProvisionFailure`. -/
def CredentialsProvisionFailure : CredentialsRequestConditionType :=
  "CredentialsProvisionFailure"

/-- Go `CredentialsDeprovisionFailure`. -/
def CredentialsDeprovisionFailure : CredentialsRequestConditionType :=
  "CredentialsDeprovisionFailure"

/-- Go `Ignored`. -/
def Ignored : CredentialsRequestConditionType := "Ignored"

/-- Go `StaleCredentials`. -/
def StaleCredentials : CredentialsRequestConditionType := "StaleCredentials"

/-- Go `OrphanedCloudResource`. -/
def OrphanedCloudResource : CredentialsRequestConditionType := "OrphanedCloudResource"

/-- The seven condition types of the `const` block, in the order declared. -/
def declaredConditionTypes : List CredentialsRequestConditionType :=
  [InsufficientCloudCredentials, MissingTargetNamespace, CredentialsProvisionFailure,
    CredentialsDeprovisionFailure, Ignored, StaleCredentials, OrphanedCloudResource]

/-- Go `FailureConditionTypes`. -/
def FailureConditionTypes : List CredentialsRequestConditionType :=
  [InsufficientCloudCredentials, MissingTargetNamespace, CredentialsProvisionFailure,
    CredentialsDeprovisionFailure]

/-- Go `CredentialsRequestCondition`. `Status` is a `corev1.ConditionStatus`, a
string type. The field `Type` is written `Type_`. -/
structure CredentialsRequestCondition (X : External) where
  Type_ : CredentialsRequestConditionType
  Status : String
  LastProbeTime : X.Time
  LastTransitionTime : X.Time
  Reason : String
  Message : String

/-- Go `CredentialsRequestSpec`. A pointer is an `Option`, and so is a slice,
with `none` for nil. -/
structure CredentialsRequestSpec (X : External) where
  SecretRef : X.ObjectReference
  ProviderSpec : Option X.RawExtension
  ServiceAccountNames : Option (List String)
  CloudTokenPath : String

/-- Go `CredentialsRequestStatus`. `LastSyncGeneration` is an `int64`. -/
structure CredentialsRequestStatus (X : External) where
  Provisioned : Bool
  LastSyncTimestamp : Option X.Time
  LastSyncGeneration : Int
  LastSyncCloudCredsSecretResourceVersion : String
  ProviderStatus : Option X.RawExtension
  Conditions : Option (List (CredentialsRequestCondition X))

/-- The `metav1.TypeMeta` embedded in `CredentialsRequest`: two strings,
tagged `kind,omitempty` and `apiVersion,omitempty`. -/
structure TypeMeta where
  Kind : String
  APIVersion : String

/-- Go `CredentialsRequest`. -/
structure CredentialsRequest (X : External) where
  TypeMeta : TypeMeta
  ObjectMeta : X.ObjectMeta
  Spec : CredentialsRequestSpec X
  Status : CredentialsRequestStatus X

/-- The Go zero value of `CredentialsRequestCondition`. -/
def CredentialsRequestCondition.zero (X : External) : CredentialsRequestCondition X :=
  { Type_ := "", Status := "", LastProbeTime := X.zeroTime, LastTransitionTime := X.zeroTime,
    Reason := "", Message := "" }

/-- The Go zero value of `CredentialsRequestSpec`. -/
def CredentialsRequestSpec.zero (X : External) : CredentialsRequestSpec X :=
  { SecretRef := X.zeroObjectReference, ProviderSpec := none, ServiceAccountNames := none,
    CloudTokenPath := "" }

/-- The Go zero value of `CredentialsRequestStatus`. -/
def CredentialsRequestStatus.zero (X : External) : CredentialsRequestStatus X :=
  { Provisioned := false, LastSyncTimestamp := none, LastSyncGeneration := 0,
    LastSyncCloudCredsSecretResourceVersion := "", ProviderStatus := none, Conditions := none }

/-- The entries of a status's `Conditions` (none for a nil slice). -/
def CredentialsRequestStatus.conditions {X : External} (s : CredentialsRequestStatus X) :
    List (CredentialsRequestCondition X) :=
  match s.Conditions with
  | none => []
  | some entries => entries

/-- The entries of a status's `Conditions` that have the given type. -/
def CredentialsRequestStatus.conditionsOfType {X : External} (s : CredentialsRequestStatus X)
    (t : CredentialsRequestConditionType) : List (CredentialsRequestCondition X) :=
  s.conditions.filter (fun c => c.Type_ = t)

/-- Modelled from the spec: the update of a condition list, "append/replace
semantics keyed by type". The function that maintains `Conditions` is not among
the source files. An entry of the same type is replaced where it stands;
when there is none the new entry is appended. -/
def setCondition {X : External} :
    List (CredentialsRequestCondition X) → CredentialsRequestCondition X →
      List (CredentialsRequestCondition X)
  | [], c => [c]
  | x :: rest, c => if x.Type_ = c.Type_ then c :: rest else x :: setCondition rest c

/-- The update `setCondition` applied to the `Conditions` of a status. -/
def CredentialsRequestStatus.setCondition {X : External} (s : CredentialsRequestStatus X)
    (c : CredentialsRequestCondition X) : CredentialsRequestStatus X :=
  { s with Conditions := some (CloudCredential.setCondition s.conditions c) }

/-! ### JSON encoding under the field tags -/

/-- The encoding of a `CredentialsRequestCondition`: `type` and `status`
always; `lastProbeTime` and `lastTransitionTime` always, because `omitempty`
leaves out no field whose type is a struct, as `metav1.Time` is; `reason` and
`message` unless empty. -/
def CredentialsRequestCondition.encode {X : External} (c : CredentialsRequestCondition X) :
    JSON :=
  JSON.object
    ([("type", JSON.string c.Type_), ("status", JSON.string c.Status),
      ("lastProbeTime", X.encodeTime c.LastProbeTime),
      ("lastTransitionTime", X.encodeTime c.LastTransitionTime)]
      ++ omitEmptyString "reason" c.Reason
      ++ omitEmptyString "message" c.Message)

/-- The encoding of a `CredentialsRequestSpec`. -/
def CredentialsRequestSpec.encode {X : External} (s : CredentialsRequestSpec X) : JSON :=
  JSON.object
    ([("secretRef", X.encodeObjectReference s.SecretRef)]
      ++ omitEmptyPointer "providerSpec" X.encodeRawExtension s.ProviderSpec
      ++ omitEmptySlice "serviceAccountNames" JSON.string s.ServiceAccountNames
      ++ omitEmptyString "cloudTokenPath" s.CloudTokenPath)

/-- The encoding of a `CredentialsRequestStatus`. -/
def CredentialsRequestStatus.encode {X : External} (s : CredentialsRequestStatus X) : JSON :=
  JSON.object
    ([("provisioned", JSON.bool s.Provisioned)]
      ++ omitEmptyPointer "lastSyncTimestamp" X.encodeTime s.LastSyncTimestamp
      ++ [("lastSyncGeneration", JSON.number s.LastSyncGeneration)]
      ++ omitEmptyString "lastSyncCloudCredsSecretResourceVersion"
          s.LastSyncCloudCredsSecretResourceVersion
      ++ omitEmptyPointer "providerStatus" X.encodeRawExtension s.ProviderStatus
      ++ omitEmptySlice "conditions" CredentialsRequestCondition.encode s.Conditions)

/-- The encoding of a `CredentialsRequest`: the fields of the inlined
`TypeMeta`, then `metadata`, `spec` and `status`; the last three are structs
and are always written. -/
def CredentialsRequest.encode {X : External} (r : CredentialsRequest X) : JSON :=
  JSON.object
    (omitEmptyString "kind" r.TypeMeta.Kind
      ++ omitEmptyString "apiVersion" r.TypeMeta.APIVersion
      ++ [("metadata", X.encodeObjectMeta r.ObjectMeta),
          ("spec", r.Spec.encode),
          ("status", r.Status.encode)])

/-- Decoding an array item into a string. -/
def decodeStringItem (j : JSON) : Option String :=
  decodeString (some j)

/-- Decoding a document into a fresh `CredentialsRequestCondition`. -/
def CredentialsRequestCondition.decode (X : External) (j : JSON) :
    Option (CredentialsRequestCondition X) :=
  match j with
  | .null => some (CredentialsRequestCondition.zero X)
  | .object members =>
    (decodeString (members.lookup "type")).bind fun type_ =>
    (decodeString (members.lookup "status")).bind fun status =>
    (decodeValue X.zeroTime X.decodeTime (members.lookup "lastProbeTime")).bind fun probe =>
    (decodeValue X.zeroTime X.decodeTime (members.lookup "lastTransitionTime")).bind
      fun transition =>
    (decodeString (members.lookup "reason")).bind fun reason =>
    (decodeString (members.lookup "message")).bind fun message =>
    some { Type_ := type_, Status := status, LastProbeTime := probe,
           LastTransitionTime := transition, Reason := reason, Message := message }
  | _ => none

/-- Decoding a document into a fresh `CredentialsRequestSpec`. -/
def CredentialsRequestSpec.decode (X : External) (j : JSON) : Option (CredentialsRequestSpec X) :=
  match j with
  | .null => some (CredentialsRequestSpec.zero X)
  | .object members =>
    (decodeValue X.zeroObjectReference X.decodeObjectReference
      (members.lookup "secretRef")).bind fun secretRef =>
    (decodePointer X.decodeRawExtension (members.lookup "providerSpec")).bind fun providerSpec =>
    (decodeSlice decodeStringItem (members.lookup "serviceAccountNames")).bind fun names =>
    (decodeString (members.lookup "cloudTokenPath")).bind fun path =>
    some { SecretRef := secretRef, ProviderSpec := providerSpec, ServiceAccountNames := names,
           CloudTokenPath := path }
  | _ => none

/-- Decoding a document into a fresh `CredentialsRequestStatus`. -/
def CredentialsRequestStatus.decode (X : External) (j : JSON) :
    Option (CredentialsRequestStatus X) :=
  match j with
  | .null => some (CredentialsRequestStatus.zero X)
  | .object members =>
    (decodeBool (members.lookup "provisioned")).bind fun provisioned =>
    (decodePointer X.decodeTime (members.lookup "lastSyncTimestamp")).bind fun timestamp =>
    (decodeInt64 (members.lookup "lastSyncGeneration")).bind fun generation =>
    (decodeString (members.lookup "lastSyncCloudCredsSecretResourceVersion")).bind
      fun version =>
    (decodePointer X.decodeRawExtension (members.lookup "providerStatus")).bind
      fun providerStatus =>
    (decodeSlice (CredentialsRequestCondition.decode X) (members.lookup "conditions")).bind
      fun conditions =>
    some { Provisioned := provisioned, LastSyncTimestamp := timestamp,
           LastSyncGeneration := generation,
           LastSyncCloudCredsSecretResourceVersion := version,
           ProviderStatus := providerStatus, Conditions := conditions }
  | _ => none

/-- The Go zero value of `CredentialsRequest`. -/
def CredentialsRequest.zero (X : External) : CredentialsRequest X :=
  { TypeMeta := { Kind := "", APIVersion := "" }, ObjectMeta := X.zeroObjectMeta,
    Spec := CredentialsRequestSpec.zero X, Status := CredentialsRequestStatus.zero X }

/-- Decoding a document into a fresh `CredentialsRequest`. -/
def CredentialsRequest.decode (X : External) (j : JSON) : Option (CredentialsRequest X) :=
  match j with
  | .null => some (CredentialsRequest.zero X)
  | .object members =>
    (decodeString (members.lookup "kind")).bind fun kind =>
    (decodeString (members.lookup "apiVersion")).bind fun apiVersion =>
    (decodeValue X.zeroObjectMeta X.decodeObjectMeta (members.lookup "metadata")).bind
      fun objectMeta =>
    (decodeValue (CredentialsRequestSpec.zero X) (CredentialsRequestSpec.decode X)
      (members.lookup "spec")).bind fun spec =>
    (decodeValue (CredentialsRequestStatus.zero X) (CredentialsRequestStatus.decode X)
      (members.lookup "status")).bind fun status =>
    some { TypeMeta := { Kind := kind, APIVersion := apiVersion }, ObjectMeta := objectMeta,
           Spec := spec, Status := status }
  | _ => none

/-! ### When a value survives encoding and decoding -/

/-- A pointer field survives when it is nil, or when what it points to is not
written as `null` (which would be read back as a nil pointer) and is read
back as itself. -/
def pointerRoundTrips {α : Type} (encode : α → JSON) (decode : JSON → Option α)
    (p : Option α) : Prop :=
  match p with
  | none => True
  | some v => (encode v).isNull = false ∧ decode (encode v) = some v

/-- The two times of a condition are read back as themselves. -/
def CredentialsRequestCondition.RoundTrips {X : External} (c : CredentialsRequestCondition X) :
    Prop :=
  X.decodeTime (X.encodeTime c.LastProbeTime) = some c.LastProbeTime ∧
  X.decodeTime (X.encodeTime c.LastTransitionTime) = some c.LastTransitionTime

/-- The secret reference and the provider spec are read back as themselves
and the slice of service account names is nil or has an entry. -/
def CredentialsRequestSpec.RoundTrips {X : External} (s : CredentialsRequestSpec X) : Prop :=
  X.decodeObjectReference (X.encodeObjectReference s.SecretRef) = some s.SecretRef ∧
  pointerRoundTrips X.encodeRawExtension X.decodeRawExtension s.ProviderSpec ∧
  s.ServiceAccountNames ≠ some []

/-- The timestamp and the provider status are read back as themselves, the
generation is an `int64`, the slice of conditions is nil or has an entry, and
the times of every condition are read back as themselves. -/
def CredentialsRequestStatus.RoundTrips {X : External} (s : CredentialsRequestStatus X) :
    Prop :=
  pointerRoundTrips X.encodeTime X.decodeTime s.LastSyncTimestamp ∧
  (-(2 ^ 63) ≤ s.LastSyncGeneration ∧ s.LastSyncGeneration < 2 ^ 63) ∧
  pointerRoundTrips X.encodeRawExtension X.decodeRawExtension s.ProviderStatus ∧
  s.Conditions ≠ some [] ∧
  ∀ c ∈ s.conditions, c.RoundTrips

/-- The object metadata is read back as itself, and so are the parts of the
spec and of the status whose types are declared elsewhere. -/
def CredentialsRequest.RoundTrips {X : External} (r : CredentialsRequest X) : Prop :=
  X.decodeObjectMeta (X.encodeObjectMeta r.ObjectMeta) = some r.ObjectMeta ∧
  r.Spec.RoundTrips ∧ r.Status.RoundTrips

/-! ### Concrete values -/

/-- An instance of `External` with which concrete values are written. Object
metadata and an object reference are a name; a raw extension is its JSON
document; a time is the zero time (`none`), which `metav1.Time` writes as
`null`, or an instant given by its RFC 3339 text. -/
def sampleExternal : External where
  ObjectMeta := String
  ObjectReference := String
  RawExtension := JSON
  Time := Option String
  zeroObjectMeta := ""
  zeroObjectReference := ""
  zeroTime := none
  encodeObjectMeta := fun name => JSON.object (omitEmptyString "name" name)
  decodeObjectMeta := fun j =>
    match j with
    | .null => some ""
    | .object members => decodeString (members.lookup "name")
    | _ => none
  encodeObjectReference := fun name => JSON.object (omitEmptyString "name" name)
  decodeObjectReference := fun j =>
    match j with
    | .null => some ""
    | .object members => decodeString (members.lookup "name")
    | _ => none
  encodeRawExtension := fun raw => raw
  decodeRawExtension := fun j => some j
  encodeTime := fun t =>
    match t with
    | none => JSON.null
    | some text => JSON.string text
  decodeTime := fun j =>
    match j with
    | .null => some none
    | .string text => some (some text)
    | _ => none

/-- A condition of type `Ignored` whose times, reason and message are left at
their zero values. -/
def ignoredCondition : CredentialsRequestCondition sampleExternal :=
  { Type_ := Ignored, Status := "True", LastProbeTime := none, LastTransitionTime := none,
    Reason := "", Message := "" }

/-- A request whose `ServiceAccountNames` is an empty slice that is not nil. -/
def requestWithEmptyNames : CredentialsRequest sampleExternal :=
  { TypeMeta := { Kind := "CredentialsRequest", APIVersion := "cloudcredential.openshift.io/v1" },
    ObjectMeta := "cloud-credential-operator-iam-ro",
    Spec := { SecretRef := "cloud-credential-operator-iam-ro-creds", ProviderSpec := none,
              ServiceAccountNames := some [], CloudTokenPath := "" },
    Status := CredentialsRequestStatus.zero sampleExternal }

/-- A request with every optional field set and two conditions. -/
def provisionedRequest : CredentialsRequest sampleExternal :=
  { TypeMeta := { Kind := "CredentialsRequest", APIVersion := "cloudcredential.openshift.io/v1" },
    ObjectMeta := "openshift-image-registry",
    Spec := { SecretRef := "installer-cloud-credentials",
              ProviderSpec := some (JSON.object [("kind", JSON.string "AWSProviderSpec")]),
              ServiceAccountNames := some ["registry", "cluster-image-registry-operator"],
              CloudTokenPath := "/var/run/secrets/openshift/serviceaccount/token" },
    Status := { Provisioned := true,
                LastSyncTimestamp := some (some "2024-05-01T10:00:00Z"),
                LastSyncGeneration := 3,
                LastSyncCloudCredsSecretResourceVersion := "41872",
                ProviderStatus := some (JSON.object [("user", JSON.string "registry-x7k2p")]),
                Conditions := some
                  [{ Type_ := CredentialsProvisionFailure, Status := "False",
                     LastProbeTime := some "2024-05-01T10:00:00Z",
                     LastTransitionTime := some "2024-05-01T09:00:00Z",
                     Reason := "CredentialsProvisionSuccess", Message := "" },
                   { Type_ := Ignored, Status := "False",
                     LastProbeTime := none, LastTransitionTime := none,
                     Reason := "", Message := "" }] } }


/-- A status document with two conditions of type `Ignored`. -/
def twoIgnoredDocument : JSON :=
  JSON.object
    [("provisioned", JSON.bool false),
     ("lastSyncGeneration", JSON.number 0),
     ("conditions", JSON.array
        [JSON.object [("type", JSON.string "Ignored"), ("status", JSON.string "True"),
                      ("lastProbeTime", JSON.null), ("lastTransitionTime", JSON.null)],
         JSON.object [("type", JSON.string "Ignored"), ("status", JSON.string "False"),
                      ("lastProbeTime", JSON.null), ("lastTransitionTime", JSON.null)]])]

/-- A status whose `Conditions` holds two entries of type `Ignored`. -/
def statusWithTwoIgnored : CredentialsRequestStatus sampleExternal :=
  { Provisioned := false, LastSyncTimestamp := none, LastSyncGeneration := 0,
    LastSyncCloudCredsSecretResourceVersion := "", ProviderStatus := none,
    Conditions := some
      [{ Type_ := Ignored, Status := "True", LastProbeTime := none,
         LastTransitionTime := none, Reason := "", Message := "" },
       { Type_ := Ignored, Status := "False", LastProbeTime := none,
         LastTransitionTime := none, Reason := "", Message := "" }] }

/-! ## Theorems: the pod identity selectors -/

theorem getSecret_requests (c : Clientset) (ns name : String) (w : World) :
    (c.getSecret ns name w).2 =
      { w with requests := w.requests ++ [Request.get "secrets" ns name] } := by
  unfold Clientset.getSecret
  cases c.fault with
  | some e => rfl
  | none => cases w.secrets ns name <;> rfl

theorem getSecret_ok_iff (c : Clientset) (ns name : String) (w : World) (s : Secret) :
    (c.getSecret ns name w).1 = .ok s ↔ c.fault = none ∧ w.secrets ns name = some s := by
  unfold Clientset.getSecret
  cases hf : c.fault with
  | some e => simp
  | none => cases hs : w.secrets ns name <;> simp

theorem hasKey_eq_true_iff (m : ByteMap) (key : String) :
    m.hasKey key = true ↔ key ∈ m.keys := by
  cases m with
  | none => simp [ByteMap.hasKey, ByteMap.keys]
  | some entries =>
    simp only [ByteMap.hasKey, ByteMap.keys, List.any_eq_true, beq_iff_eq, List.mem_map]

theorem azure_some (a : AzurePodIdentity) (c : Clientset) (ns : String) (w : World) :
    a.ShouldBeDeployed (some c) ns w =
      match c.getSecret ns "azure-credentials" w with
      | (.error _, w') => (.returned false, w')
      | (.ok secret, w') => (.returned (secret.Data.hasKey "azure_tenant_id"), w') := rfl

theorem azure_result_of_ok (a : AzurePodIdentity) (c : Clientset) (ns : String) (w : World)
    (s : Secret) (h : (c.getSecret ns "azure-credentials" w).1 = .ok s) :
    (a.ShouldBeDeployed (some c) ns w).1 = .returned (s.Data.hasKey "azure_tenant_id") := by
  rw [azure_some]
  generalize c.getSecret ns "azure-credentials" w = r at h
  obtain ⟨x, w'⟩ := r
  cases x with
  | error e => simp at h
  | ok s' =>
    simp only [Except.ok.injEq] at h
    subst h
    rfl

theorem azure_result_of_error (a : AzurePodIdentity) (c : Clientset) (ns : String) (w : World)
    (e : APIError) (h : (c.getSecret ns "azure-credentials" w).1 = .error e) :
    (a.ShouldBeDeployed (some c) ns w).1 = .returned false := by
  rw [azure_some]
  generalize c.getSecret ns "azure-credentials" w = r at h
  obtain ⟨x, w'⟩ := r
  cases x with
  | error e' => rfl
  | ok s' => simp at h

theorem azure_world (a : AzurePodIdentity) (c : Clientset) (ns : String) (w : World) :
    (a.ShouldBeDeployed (some c) ns w).2 =
      { w with requests := w.requests ++ [Request.get "secrets" ns "azure-credentials"] } := by
  have h := getSecret_requests c ns "azure-credentials" w
  rw [azure_some]
  generalize c.getSecret ns "azure-credentials" w = r at h
  obtain ⟨x, w'⟩ := r
  cases x <;> exact h

/-- C1: when the lookup of the secret `azure-credentials` in namespace `ns`
completes without error, the Azure `ShouldBeDeployed` returns true exactly when
that secret exists in `ns` and its `Data` map has the key `azure_tenant_id`.
The result is a function of the keys alone: any bytes under the key, the empty
value too, give true, and a nil map, an empty map, or a map with only other
keys gives false. -/
theorem azure_ShouldBeDeployed_iff_tenant_key (a : AzurePodIdentity) (c : Clientset)
    (ns : String) (w : World) (secret : Secret)
    (hget : (c.getSecret ns "azure-credentials" w).1 = .ok secret) :
    ((a.ShouldBeDeployed (some c) ns w).1 = .returned true ↔
        ∃ s, w.secrets ns "azure-credentials" = some s ∧ "azure_tenant_id" ∈ s.Data.keys) ∧
    (a.ShouldBeDeployed (some c) ns w).1
        = .returned (decide ("azure_tenant_id" ∈ secret.Data.keys)) ∧
    (∀ entries value, secret.Data = some entries → ("azure_tenant_id", value) ∈ entries →
        (a.ShouldBeDeployed (some c) ns w).1 = .returned true) ∧
    (secret.Data = none ∨ secret.Data = some [] ∨ "azure_tenant_id" ∉ secret.Data.keys →
        (a.ShouldBeDeployed (some c) ns w).1 = .returned false) := by
  have hres := azure_result_of_ok a c ns w secret hget
  have hstored := ((getSecret_ok_iff c ns "azure-credentials" w secret).1 hget).2
  have hkey := hasKey_eq_true_iff secret.Data "azure_tenant_id"
  refine ⟨?_, ?_, ?_, ?_⟩
  · rw [hres]
    constructor
    · intro h
      exact ⟨secret, hstored, hkey.1 (Result.returned.inj h)⟩
    · rintro ⟨s, hs, hmem⟩
      rw [hstored] at hs
      cases Option.some.inj hs
      rw [hkey.2 hmem]
  · rw [hres]
    congr 1
    by_cases hmem : "azure_tenant_id" ∈ secret.Data.keys
    · rw [hkey.2 hmem]
      exact (decide_eq_true hmem).symm
    · have hne : secret.Data.hasKey "azure_tenant_id" = false := by
        cases hb : secret.Data.hasKey "azure_tenant_id" with
        | false => rfl
        | true => exact absurd (hkey.1 hb) hmem
      rw [hne]
      exact (decide_eq_false hmem).symm
  · intro entries value hdata hmem
    rw [hres]
    congr 1
    apply hkey.2
    rw [hdata]
    exact List.mem_map.2 ⟨("azure_tenant_id", value), hmem, rfl⟩
  · intro h
    rw [hres]
    congr 1
    have hnot : "azure_tenant_id" ∉ secret.Data.keys := by
      rcases h with h | h | h
      · rw [h]; simp [ByteMap.keys]
      · rw [h]; simp [ByteMap.keys]
      · exact h
    cases hb : secret.Data.hasKey "azure_tenant_id" with
    | false => rfl
    | true => exact absurd (hkey.1 hb) hnot

/-- C1 at a concrete cluster: the secret holds `azure_tenant_id` with an empty
value; the lookup succeeds and the selector returns true. -/
theorem azure_ShouldBeDeployed_iff_tenant_key_witness :
    ((⟨none⟩ : Clientset).getSecret "kube-system" "azure-credentials"
        (worldWithAzureSecret "kube-system" (some [("azure_tenant_id", [])]))).1
      = .ok { Data := some [("azure_tenant_id", [])] } ∧
    (AzurePodIdentity.ShouldBeDeployed {} (some ⟨none⟩) "kube-system"
        (worldWithAzureSecret "kube-system" (some [("azure_tenant_id", [])]))).1
      = .returned true :=
  have h : ((⟨none⟩ : Clientset).getSecret "kube-system" "azure-credentials"
        (worldWithAzureSecret "kube-system" (some [("azure_tenant_id", [])]))).1
      = .ok { Data := some [("azure_tenant_id", [])] } := by
    simp [Clientset.getSecret, worldWithAzureSecret]
  ⟨h, (azure_ShouldBeDeployed_iff_tenant_key {} ⟨none⟩ "kube-system" _ _ h).2.2.1
        [("azure_tenant_id", [])] [] rfl (List.mem_singleton.2 rfl)⟩

/-- C2: whatever error the `Get` of the secret `azure-credentials` comes back
with, the Azure `ShouldBeDeployed` returns false (it returns a plain boolean
and does not panic), which is also its result for a reachable cluster in which
the secret is absent. -/
theorem azure_ShouldBeDeployed_false_on_error (a : AzurePodIdentity) (c : Clientset)
    (ns : String) (w : World) (e : APIError)
    (herr : (c.getSecret ns "azure-credentials" w).1 = .error e) :
    (a.ShouldBeDeployed (some c) ns w).1 = .returned false ∧
    (a.ShouldBeDeployed (some c) ns w).1
      = (a.ShouldBeDeployed (some ⟨none⟩) ns { w with secrets := fun _ _ => none }).1 := by
  have h1 := azure_result_of_error a c ns w e herr
  refine ⟨h1, ?_⟩
  rw [h1]
  exact (azure_result_of_error a ⟨none⟩ ns { w with secrets := fun _ _ => none }
    APIError.notFound rfl).symm

/-- C2 at a concrete client: the secret is stored, but the client is not
allowed to read it. -/
theorem azure_ShouldBeDeployed_false_on_error_witness :
    ((⟨some APIError.forbidden⟩ : Clientset).getSecret "kube-system" "azure-credentials"
        (worldWithAzureSecret "kube-system" (some [("azure_tenant_id", [1])]))).1
      = .error APIError.forbidden ∧
    (AzurePodIdentity.ShouldBeDeployed {} (some ⟨some APIError.forbidden⟩) "kube-system"
        (worldWithAzureSecret "kube-system" (some [("azure_tenant_id", [1])]))).1
      = .returned false :=
  ⟨rfl, (azure_ShouldBeDeployed_false_on_error {} ⟨some APIError.forbidden⟩ "kube-system"
          (worldWithAzureSecret "kube-system" (some [("azure_tenant_id", [1])]))
          APIError.forbidden rfl).1⟩

/-- C3: the AWS `ShouldBeDeployed` returns true for every namespace and every
client pointer, nil (`none`) and faulty clients included; it does not panic
and sends no request, so the client is never dereferenced. -/
theorem aws_ShouldBeDeployed_true (a : AwsPodIdentity) (clientSet : Option Clientset)
    (ns : String) (w : World) :
    a.ShouldBeDeployed clientSet ns w = (.returned true, w) := rfl

/-- C4: `GetImagePullSpec` returns the value of `AWS_POD_IDENTITY_WEBHOOK_IMAGE`
(AWS) or `AZURE_POD_IDENTITY_WEBHOOK_IMAGE` (Azure) in the environment of the
call, and the empty string when the variable is unset; after the variable is
set to a new value, or unset, the next call returns the new value or the
empty string. -/
theorem GetImagePullSpec_reads_environment (aws : AwsPodIdentity) (azure : AzurePodIdentity)
    (env : Environ) (v : String) :
    aws.GetImagePullSpec env = (env "AWS_POD_IDENTITY_WEBHOOK_IMAGE").getD "" ∧
    azure.GetImagePullSpec env = (env "AZURE_POD_IDENTITY_WEBHOOK_IMAGE").getD "" ∧
    aws.GetImagePullSpec (os.Setenv env "AWS_POD_IDENTITY_WEBHOOK_IMAGE" v) = v ∧
    azure.GetImagePullSpec (os.Setenv env "AZURE_POD_IDENTITY_WEBHOOK_IMAGE" v) = v ∧
    aws.GetImagePullSpec (os.Unsetenv env "AWS_POD_IDENTITY_WEBHOOK_IMAGE") = "" ∧
    azure.GetImagePullSpec (os.Unsetenv env "AZURE_POD_IDENTITY_WEBHOOK_IMAGE") = "" := by
  refine ⟨?_, ?_, ?_, ?_, ?_, ?_⟩
  · unfold AwsPodIdentity.GetImagePullSpec os.Getenv
    cases env "AWS_POD_IDENTITY_WEBHOOK_IMAGE" <;> rfl
  · unfold AzurePodIdentity.GetImagePullSpec os.Getenv
    cases env "AZURE_POD_IDENTITY_WEBHOOK_IMAGE" <;> rfl
  · simp [AwsPodIdentity.GetImagePullSpec, os.Getenv, os.Setenv]
  · simp [AzurePodIdentity.GetImagePullSpec, os.Getenv, os.Setenv]
  · simp [AwsPodIdentity.GetImagePullSpec, os.Getenv, os.Unsetenv]
  · simp [AzurePodIdentity.GetImagePullSpec, os.Getenv, os.Unsetenv]

/-- C5: `Deployment` is a constant of the variant: the AWS path is
`v4.1.0/aws-pod-identity-webhook/deployment.yaml`, the Azure path is
`v4.1.0/azure-pod-identity-webhook/deployment.yaml`, and the two differ. -/
theorem Deployment_constant (aws : AwsPodIdentity) (azure : AzurePodIdentity) :
    aws.Deployment = "v4.1.0/aws-pod-identity-webhook/deployment.yaml" ∧
    azure.Deployment = "v4.1.0/azure-pod-identity-webhook/deployment.yaml" ∧
    aws.Deployment ≠ azure.Deployment := by
  refine ⟨rfl, rfl, ?_⟩
  unfold AwsPodIdentity.Deployment AzurePodIdentity.Deployment
  decide

/-- C6 as stated fails for a nil client: the Azure `ShouldBeDeployed` panics in
`clientSet.CoreV1()` and the request log is still empty afterwards, so it has
not sent the one `get` of the claim. -/
theorem azure_nil_client_sends_no_request :
    (AzurePodIdentity.ShouldBeDeployed {} none "kube-system" emptyWorld).1 = .panicked ∧
    (AzurePodIdentity.ShouldBeDeployed {} none "kube-system" emptyWorld).2.requests = [] ∧
    (AzurePodIdentity.ShouldBeDeployed {} none "kube-system" emptyWorld).2.requests
      ≠ emptyWorld.requests ++ [Request.get "secrets" "kube-system" "azure-credentials"] := by
  refine ⟨rfl, rfl, ?_⟩
  simp [AzurePodIdentity.ShouldBeDeployed, emptyWorld]

/-- C6, amended: `ShouldBeDeployed` leaves the stored secrets unchanged for
both variants and every input. The AWS variant sends no request at all. The
Azure variant, given a non-nil client, sends exactly one request, the `get` of
the secret `azure-credentials` in the given namespace, and whatever it sends
is a read; given a nil client it panics before sending anything. -/
theorem ShouldBeDeployed_leaves_cluster_unchanged (aws : AwsPodIdentity)
    (azure : AzurePodIdentity) (clientSet : Option Clientset) (c : Clientset)
    (ns : String) (w : World) :
    (aws.ShouldBeDeployed clientSet ns w).2 = w ∧
    (azure.ShouldBeDeployed clientSet ns w).2.secrets = w.secrets ∧
    ((azure.ShouldBeDeployed clientSet ns w).2.requests.drop w.requests.length).all
        Request.isRead = true ∧
    (azure.ShouldBeDeployed (some c) ns w).2.requests
      = w.requests ++ [Request.get "secrets" ns "azure-credentials"] ∧
    azure.ShouldBeDeployed none ns w = (.panicked, w) := by
  refine ⟨rfl, ?_, ?_, ?_, rfl⟩
  · cases clientSet with
    | none => rfl
    | some c' => rw [azure_world]
  · cases clientSet with
    | none => simp [AzurePodIdentity.ShouldBeDeployed]
    | some c' => rw [azure_world]; simp [Request.isRead]
  · rw [azure_world]

/-- C10: for every cluster state, namespace and client pointer, the AWS check
followed by the Azure check gives the same two outcomes and the same final
world (stored secrets and request log) as the Azure check followed by the AWS
check; repeating either check gives its first outcome again, and the Azure
outcome does not depend on the requests sent before. The outcome of a call is
the value it returns, or `panicked` for the Azure check on a nil client. -/
theorem ShouldBeDeployed_checks_commute (aws : AwsPodIdentity) (azure : AzurePodIdentity)
    (clientSet : Option Clientset) (ns : String) (w : World) (earlier : List Request) :
    ((aws.ShouldBeDeployed clientSet ns w).1,
      (azure.ShouldBeDeployed clientSet ns (aws.ShouldBeDeployed clientSet ns w).2).1)
      = ((aws.ShouldBeDeployed clientSet ns (azure.ShouldBeDeployed clientSet ns w).2).1,
          (azure.ShouldBeDeployed clientSet ns w).1) ∧
    (azure.ShouldBeDeployed clientSet ns (aws.ShouldBeDeployed clientSet ns w).2).2
      = (aws.ShouldBeDeployed clientSet ns (azure.ShouldBeDeployed clientSet ns w).2).2 ∧
    (azure.ShouldBeDeployed clientSet ns (azure.ShouldBeDeployed clientSet ns w).2).1
      = (azure.ShouldBeDeployed clientSet ns w).1 ∧
    (aws.ShouldBeDeployed clientSet ns (aws.ShouldBeDeployed clientSet ns w).2).1
      = (aws.ShouldBeDeployed clientSet ns w).1 ∧
    (azure.ShouldBeDeployed clientSet ns { w with requests := earlier }).1
      = (azure.ShouldBeDeployed clientSet ns w).1 := by
  cases clientSet with
  | none => exact ⟨rfl, rfl, rfl, rfl, rfl⟩
  | some c =>
    have hlog : ∀ reqs : List Request,
        (azure.ShouldBeDeployed (some c) ns { w with requests := reqs }).1
          = (azure.ShouldBeDeployed (some c) ns w).1 := by
      intro reqs
      simp only [azure_some, Clientset.getSecret]
      cases c.fault with
      | some e => rfl
      | none => cases w.secrets ns "azure-credentials" <;> rfl
    refine ⟨rfl, rfl, ?_, rfl, hlog earlier⟩
    rw [azure_world]
    exact hlog _

/-! ## Theorems: the CredentialsRequest types -/

theorem condition_roundtrip {X : External} (c : CredentialsRequestCondition X)
    (h : c.RoundTrips) :
    CredentialsRequestCondition.decode X c.encode = some c := by
  obtain ⟨hp, ht⟩ := h
  obtain ⟨type_, status, probe, transition, reason, message⟩ := c
  simp only at hp ht
  by_cases hr : reason = "" <;> by_cases hm : message = "" <;>
    simp [CredentialsRequestCondition.encode, CredentialsRequestCondition.decode,
      omitEmptyString, List.lookup, decodeString, decodeValue, hp, ht, hr, hm]

theorem decodeItems_strings (names : List String) :
    decodeItems decodeStringItem (names.map JSON.string) = some names := by
  induction names with
  | nil => rfl
  | cons n rest ih => simp [decodeItems, decodeStringItem, decodeString, ih]

theorem decodeItems_conditions {X : External} (conds : List (CredentialsRequestCondition X))
    (h : ∀ c ∈ conds, c.RoundTrips) :
    decodeItems (CredentialsRequestCondition.decode X)
      (conds.map CredentialsRequestCondition.encode) = some conds := by
  induction conds with
  | nil => rfl
  | cons c rest ih =>
    have hc := condition_roundtrip c (h c (List.mem_cons_self c rest))
    have hrest := ih (fun d hd => h d (List.mem_cons_of_mem c hd))
    simp only [List.map_cons, decodeItems, hc, hrest]

theorem decodePointer_encode {α : Type} (encode : α → JSON) (decode : JSON → Option α)
    (v : α) (h : pointerRoundTrips encode decode (some v)) :
    decodePointer decode (some (encode v)) = some (some v) := by
  obtain ⟨hnull, hback⟩ := h
  cases hj : encode v with
  | null => rw [hj] at hnull; simp [JSON.isNull] at hnull
  | bool b => rw [hj] at hback; simp [decodePointer, hback]
  | number n => rw [hj] at hback; simp [decodePointer, hback]
  | string t => rw [hj] at hback; simp [decodePointer, hback]
  | array items => rw [hj] at hback; simp [decodePointer, hback]
  | object members => rw [hj] at hback; simp [decodePointer, hback]

theorem spec_roundtrip {X : External} (s : CredentialsRequestSpec X) (h : s.RoundTrips) :
    CredentialsRequestSpec.decode X s.encode = some s := by
  obtain ⟨href, hprov, hnames⟩ := h
  obtain ⟨secretRef, providerSpec, names, path⟩ := s
  simp only at href hprov hnames
  have hstr := decodeItems_strings
  cases providerSpec with
  | none =>
    cases names with
    | none =>
      by_cases hp : path = "" <;>
        simp [CredentialsRequestSpec.encode, CredentialsRequestSpec.decode, omitEmptyString,
          omitEmptyPointer, omitEmptySlice, List.lookup, decodeString, decodeValue,
          decodePointer, decodeSlice, href, hp]
    | some l =>
      cases l with
      | nil => exact absurd rfl hnames
      | cons n rest =>
        have hl := hstr (n :: rest)
        simp only [List.map_cons] at hl
        by_cases hp : path = "" <;>
          simp [CredentialsRequestSpec.encode, CredentialsRequestSpec.decode, omitEmptyString,
            omitEmptyPointer, omitEmptySlice, List.lookup, decodeString, decodeValue,
            decodePointer, decodeSlice, href, hp, hl]
  | some v =>
    have hv := decodePointer_encode _ _ v hprov
    cases names with
    | none =>
      by_cases hp : path = "" <;>
        simp [CredentialsRequestSpec.encode, CredentialsRequestSpec.decode, omitEmptyString,
          omitEmptyPointer, omitEmptySlice, List.lookup, decodeString, decodeValue,
          decodeSlice, href, hp, hv]
    | some l =>
      cases l with
      | nil => exact absurd rfl hnames
      | cons n rest =>
        have hl := hstr (n :: rest)
        simp only [List.map_cons] at hl
        by_cases hp : path = "" <;>
          simp [CredentialsRequestSpec.encode, CredentialsRequestSpec.decode, omitEmptyString,
            omitEmptyPointer, omitEmptySlice, List.lookup, decodeString, decodeValue,
            decodeSlice, href, hp, hl, hv]

theorem decodePointer_absent {α : Type} (decode : JSON → Option α) :
    decodePointer decode none = some none := rfl

theorem status_roundtrip {X : External} (s : CredentialsRequestStatus X) (h : s.RoundTrips) :
    CredentialsRequestStatus.decode X s.encode = some s := by
  obtain ⟨hts, hgen, hps, hne, hall⟩ := h
  have hitems := decodeItems_conditions s.conditions hall
  obtain ⟨provisioned, ts, gen, version, ps, conds⟩ := s
  simp only [CredentialsRequestStatus.conditions] at hts hgen hps hne hitems
  have hgen' : decodeInt64 (some (JSON.number gen)) = some gen := by
    simp only [decodeInt64]
    rw [if_pos hgen]
  rcases conds with _ | _ | ⟨c, rest⟩
  · rcases ts with _ | ts <;> rcases ps with _ | ps <;> by_cases hv : version = "" <;>
      simp [CredentialsRequestStatus.encode, CredentialsRequestStatus.decode, omitEmptyString,
        omitEmptyPointer, omitEmptySlice, List.lookup, decodeString, decodeBool,
        decodeSlice, decodePointer_encode, decodePointer_absent, hts, hps, hv, hgen']
  · exact absurd rfl hne
  · simp only [List.map_cons] at hitems
    rcases ts with _ | ts <;> rcases ps with _ | ps <;> by_cases hv : version = "" <;>
      simp [CredentialsRequestStatus.encode, CredentialsRequestStatus.decode, omitEmptyString,
        omitEmptyPointer, omitEmptySlice, List.lookup, decodeString, decodeBool,
        decodeSlice, decodePointer_encode, decodePointer_absent, hts, hps, hv, hgen', hitems]

theorem request_roundtrip {X : External} (r : CredentialsRequest X) (h : r.RoundTrips) :
    CredentialsRequest.decode X r.encode = some r := by
  obtain ⟨hmeta, hspec, hstatus⟩ := h
  have hs := spec_roundtrip r.Spec hspec
  have ht := status_roundtrip r.Status hstatus
  obtain ⟨⟨kind, apiVersion⟩, objectMeta, spec, status⟩ := r
  simp only at hmeta hs ht
  by_cases hk : kind = "" <;> by_cases ha : apiVersion = "" <;>
    simp [CredentialsRequest.encode, CredentialsRequest.decode, omitEmptyString, List.lookup,
      decodeString, decodeValue, hmeta, hs, ht, hk, ha]

theorem condition_memberNames {X : External} (c : CredentialsRequestCondition X) :
    ("reason" ∈ c.encode.memberNames ↔ c.Reason ≠ "") ∧
    ("message" ∈ c.encode.memberNames ↔ c.Message ≠ "") := by
  obtain ⟨type_, status, probe, transition, reason, message⟩ := c
  by_cases hr : reason = "" <;> by_cases hm : message = "" <;>
    simp [CredentialsRequestCondition.encode, JSON.memberNames, omitEmptyString, hr, hm]

theorem spec_memberNames {X : External} (s : CredentialsRequestSpec X)
    (hnames : s.ServiceAccountNames ≠ some []) :
    ("providerSpec" ∈ s.encode.memberNames ↔ s.ProviderSpec ≠ none) ∧
    ("serviceAccountNames" ∈ s.encode.memberNames ↔ s.ServiceAccountNames ≠ none) ∧
    ("cloudTokenPath" ∈ s.encode.memberNames ↔ s.CloudTokenPath ≠ "") := by
  obtain ⟨secretRef, providerSpec, names, path⟩ := s
  simp only at hnames
  rcases names with _ | _ | ⟨n, rest⟩
  · rcases providerSpec with _ | v <;> by_cases hp : path = "" <;>
      simp [CredentialsRequestSpec.encode, JSON.memberNames, omitEmptyString, omitEmptyPointer,
        omitEmptySlice, hp]
  · exact absurd rfl hnames
  · rcases providerSpec with _ | v <;> by_cases hp : path = "" <;>
      simp [CredentialsRequestSpec.encode, JSON.memberNames, omitEmptyString, omitEmptyPointer,
        omitEmptySlice, hp]

theorem status_memberNames {X : External} (s : CredentialsRequestStatus X)
    (hconds : s.Conditions ≠ some []) :
    ("lastSyncTimestamp" ∈ s.encode.memberNames ↔ s.LastSyncTimestamp ≠ none) ∧
    ("lastSyncCloudCredsSecretResourceVersion" ∈ s.encode.memberNames ↔
      s.LastSyncCloudCredsSecretResourceVersion ≠ "") ∧
    ("providerStatus" ∈ s.encode.memberNames ↔ s.ProviderStatus ≠ none) ∧
    ("conditions" ∈ s.encode.memberNames ↔ s.Conditions ≠ none) := by
  obtain ⟨provisioned, ts, gen, version, ps, conds⟩ := s
  simp only at hconds
  rcases conds with _ | _ | ⟨c, rest⟩
  · rcases ts with _ | ts <;> rcases ps with _ | ps <;> by_cases hv : version = "" <;>
      simp [CredentialsRequestStatus.encode, JSON.memberNames, omitEmptyString,
        omitEmptyPointer, omitEmptySlice, hv]
  · exact absurd rfl hconds
  · rcases ts with _ | ts <;> rcases ps with _ | ps <;> by_cases hv : version = "" <;>
      simp [CredentialsRequestStatus.encode, JSON.memberNames, omitEmptyString,
        omitEmptyPointer, omitEmptySlice, hv]

/-- C9 as stated fails. A condition whose times are left at zero is written
with the members `lastProbeTime` and `lastTransitionTime`, so they are not
absent from the encoding. And a request whose `ServiceAccountNames` is an empty
slice that is not nil is read back with a nil slice, so decoding does not
yield the request back. -/
theorem roundtrip_fails_as_stated :
    ignoredCondition.encode.memberNames
      = ["type", "status", "lastProbeTime", "lastTransitionTime"] ∧
    requestWithEmptyNames.Spec.ServiceAccountNames = some [] ∧
    (CredentialsRequest.decode sampleExternal requestWithEmptyNames.encode).map
        (fun r => r.Spec.ServiceAccountNames) = some none ∧
    CredentialsRequest.decode sampleExternal requestWithEmptyNames.encode
      ≠ some requestWithEmptyNames := by
  have hdec : (CredentialsRequest.decode sampleExternal requestWithEmptyNames.encode).map
      (fun r => r.Spec.ServiceAccountNames) = some none := rfl
  refine ⟨rfl, rfl, hdec, ?_⟩
  intro h
  rw [h] at hdec
  simp [requestWithEmptyNames] at hdec

/-- C9, amended: a CredentialsRequest whose values of the types declared
outside the repository are read back as themselves (no pointer points to a
value written as `null`), whose slices are nil or have an entry, and whose
`LastSyncGeneration` is an `int64`, is got back by decoding its encoding, with
its conditions in the same order. Each of providerSpec, serviceAccountNames,
cloudTokenPath, lastSyncTimestamp, lastSyncCloudCredsSecretResourceVersion,
providerStatus, conditions, and a condition's reason and message is a member
of the encoding exactly when the field is not nil or empty. Nothing is said
of lastProbeTime and lastTransitionTime. -/
theorem credentialsRequest_roundtrip {X : External} (r : CredentialsRequest X)
    (h : r.RoundTrips) :
    CredentialsRequest.decode X r.encode = some r ∧
    (CredentialsRequest.decode X r.encode).map (fun d => d.Status.Conditions)
      = some r.Status.Conditions ∧
    ("providerSpec" ∈ r.Spec.encode.memberNames ↔ r.Spec.ProviderSpec ≠ none) ∧
    ("serviceAccountNames" ∈ r.Spec.encode.memberNames ↔ r.Spec.ServiceAccountNames ≠ none) ∧
    ("cloudTokenPath" ∈ r.Spec.encode.memberNames ↔ r.Spec.CloudTokenPath ≠ "") ∧
    ("lastSyncTimestamp" ∈ r.Status.encode.memberNames ↔ r.Status.LastSyncTimestamp ≠ none) ∧
    ("lastSyncCloudCredsSecretResourceVersion" ∈ r.Status.encode.memberNames ↔
      r.Status.LastSyncCloudCredsSecretResourceVersion ≠ "") ∧
    ("providerStatus" ∈ r.Status.encode.memberNames ↔ r.Status.ProviderStatus ≠ none) ∧
    ("conditions" ∈ r.Status.encode.memberNames ↔ r.Status.Conditions ≠ none) ∧
    (∀ c ∈ r.Status.conditions,
      ("reason" ∈ c.encode.memberNames ↔ c.Reason ≠ "") ∧
      ("message" ∈ c.encode.memberNames ↔ c.Message ≠ "")) := by
  have hback := request_roundtrip r h
  obtain ⟨_, hspec, hstatus⟩ := h
  obtain ⟨h1, h2, h3⟩ := spec_memberNames r.Spec hspec.2.2
  obtain ⟨h4, h5, h6, h7⟩ := status_memberNames r.Status hstatus.2.2.2.1
  refine ⟨hback, ?_, h1, h2, h3, h4, h5, h6, h7, fun c _ => condition_memberNames c⟩
  rw [hback]
  rfl

/-- C9, amended, at a request with every optional field set and two
conditions. -/
theorem credentialsRequest_roundtrip_witness :
    provisionedRequest.RoundTrips ∧
    CredentialsRequest.decode sampleExternal provisionedRequest.encode
      = some provisionedRequest :=
  have h : provisionedRequest.RoundTrips := by
    simp [CredentialsRequest.RoundTrips, CredentialsRequestSpec.RoundTrips,
      CredentialsRequestStatus.RoundTrips, CredentialsRequestCondition.RoundTrips,
      pointerRoundTrips, provisionedRequest, sampleExternal,
      CredentialsRequestStatus.conditions, omitEmptyString, List.lookup, decodeString,
      JSON.isNull]
  ⟨h, (credentialsRequest_roundtrip provisionedRequest h).1⟩

/-- C7: `FailureConditionTypes` holds exactly the four condition types
InsufficientCloudCreds, MissingTargetNamespace, CredentialsProvisionFailure and
CredentialsDeprovisionFailure, each once; every member is one of the seven
declared condition types, which are pairwise different; Ignored,
StaleCredentials and OrphanedCloudResource are not members. -/
theorem FailureConditionTypes_members :
    FailureConditionTypes
      = ["InsufficientCloudCreds", "MissingTargetNamespace", "CredentialsProvisionFailure",
          "CredentialsDeprovisionFailure"] ∧
    FailureConditionTypes
      = [InsufficientCloudCredentials, MissingTargetNamespace, CredentialsProvisionFailure,
          CredentialsDeprovisionFailure] ∧
    FailureConditionTypes.Nodup ∧
    FailureConditionTypes.length = 4 ∧
    FailureConditionTypes ⊆ declaredConditionTypes ∧
    declaredConditionTypes.Nodup ∧
    declaredConditionTypes.length = 7 ∧
    Ignored ∉ FailureConditionTypes ∧
    StaleCredentials ∉ FailureConditionTypes ∧
    OrphanedCloudResource ∉ FailureConditionTypes := by
  refine ⟨rfl, rfl, ?_, rfl, ?_, ?_, rfl, ?_, ?_, ?_⟩
  · decide
  · intro t ht
    simp only [FailureConditionTypes, List.mem_cons, List.mem_singleton, List.not_mem_nil,
      or_false] at ht
    simp only [declaredConditionTypes, List.mem_cons, List.mem_singleton]
    tauto
  · decide
  · decide
  · decide
  · decide

theorem setCondition_count {X : External} (l : List (CredentialsRequestCondition X))
    (c : CredentialsRequestCondition X) (t : CredentialsRequestConditionType) :
    ((setCondition l c).filter (fun d => d.Type_ = t)).length =
      if c.Type_ = t then max 1 (l.filter (fun d => d.Type_ = t)).length
      else (l.filter (fun d => d.Type_ = t)).length := by
  induction l with
  | nil =>
    by_cases hc : c.Type_ = t <;> simp [setCondition, List.filter_cons, hc]
  | cons x rest ih =>
    by_cases hx : x.Type_ = c.Type_
    · by_cases hc : c.Type_ = t
      · have hxt : x.Type_ = t := hx.trans hc
        simp [setCondition, List.filter_cons, hx, hc]
      · have hxt : ¬ x.Type_ = t := fun h => hc (hx.symm.trans h)
        simp [setCondition, List.filter_cons, hx, hc]
    · have e : setCondition (x :: rest) c = x :: setCondition rest c := by
        simp [setCondition, hx]
      rw [e]
      by_cases hc : c.Type_ = t
      · have hxt : ¬ x.Type_ = t := fun h => hx (h.trans hc.symm)
        rw [if_pos hc] at ih ⊢
        simp [List.filter_cons, hxt, ih]
      · rw [if_neg hc] at ih ⊢
        by_cases hxt : x.Type_ = t
        · simp [List.filter_cons, hxt, ih]
        · simp [List.filter_cons, hxt, ih]

theorem setCondition_entry {X : External} (l : List (CredentialsRequestCondition X))
    (c : CredentialsRequestCondition X)
    (h : (l.filter (fun d => d.Type_ = c.Type_)).length ≤ 1) :
    (setCondition l c).filter (fun d => d.Type_ = c.Type_) = [c] := by
  induction l with
  | nil => simp [setCondition, List.filter_cons]
  | cons x rest ih =>
    by_cases hx : x.Type_ = c.Type_
    · have hrest : rest.filter (fun d => d.Type_ = c.Type_) = [] := by
        simp only [List.filter_cons, hx, decide_True, if_true, List.length_cons] at h
        exact List.length_eq_zero.1 (by omega)
      simp [setCondition, List.filter_cons, hx, hrest]
    · have h' : (rest.filter (fun d => d.Type_ = c.Type_)).length ≤ 1 := by
        simpa [List.filter_cons, hx] using h
      simp [setCondition, List.filter_cons, hx, ih h']

theorem foldl_setCondition_count {X : External} (updates : List (CredentialsRequestCondition X))
    (l : List (CredentialsRequestCondition X)) (t : CredentialsRequestConditionType)
    (hl : (l.filter (fun d => d.Type_ = t)).length ≤ 1) :
    ((updates.foldl setCondition l).filter (fun d => d.Type_ = t)).length ≤ 1 ∧
    (((updates.foldl setCondition l).filter (fun d => d.Type_ = t)).length = 1 ↔
      (l.filter (fun d => d.Type_ = t)).length = 1 ∨ ∃ u ∈ updates, u.Type_ = t) := by
  induction updates generalizing l with
  | nil => simpa using hl
  | cons u rest ih =>
    have hcount := setCondition_count l u t
    have hnext : ((setCondition l u).filter (fun d => d.Type_ = t)).length ≤ 1 := by
      rw [hcount]
      split <;> omega
    obtain ⟨h1, h2⟩ := ih (setCondition l u) hnext
    refine ⟨h1, ?_⟩
    simp only [List.foldl_cons]
    rw [h2, hcount]
    by_cases hu : u.Type_ = t
    · simp only [hu, if_true, List.mem_cons, exists_eq_or_imp, true_or, or_true, iff_true]
      left
      omega
    · simp only [hu, if_false, List.mem_cons, exists_eq_or_imp, false_or]

theorem foldl_status_conditions {X : External} (updates : List (CredentialsRequestCondition X))
    (s : CredentialsRequestStatus X) :
    (updates.foldl CredentialsRequestStatus.setCondition s).conditions
      = updates.foldl setCondition s.conditions := by
  induction updates generalizing s with
  | nil => rfl
  | cons u rest ih =>
    simp only [List.foldl_cons]
    rw [ih]
    rfl

/-- C8 as stated fails, in both directions. The zero value of
`CredentialsRequestStatus`, the status of a request that has not been
reconciled, has a nil `Conditions`, so it holds no entry of type `Ignored`.
And `Conditions` is a plain slice: decoding a status document with two
conditions of type `Ignored` gives a status that holds two such entries, and
that status is written back as the same document. -/
theorem conditions_not_one_per_type :
    (CredentialsRequestStatus.zero sampleExternal).Conditions = none ∧
    ((CredentialsRequestStatus.zero sampleExternal).conditionsOfType Ignored).length = 0 ∧
    ((CredentialsRequestStatus.zero sampleExternal).conditionsOfType Ignored).length ≠ 1 ∧
    CredentialsRequestStatus.decode sampleExternal twoIgnoredDocument
      = some statusWithTwoIgnored ∧
    (statusWithTwoIgnored.encode.memberNames
      = ["provisioned", "lastSyncGeneration", "conditions"]) ∧
    CredentialsRequestStatus.decode sampleExternal statusWithTwoIgnored.encode
      = some statusWithTwoIgnored ∧
    (statusWithTwoIgnored.conditionsOfType Ignored).length = 2 ∧
    ¬ (statusWithTwoIgnored.conditionsOfType Ignored).length ≤ 1 := by
  refine ⟨rfl, rfl, ?_, rfl, rfl, rfl, rfl, ?_⟩
  · decide
  · decide

/-- C8, amended: the type of `Conditions` does not bound the entries per
condition type; the bound comes from the updates. An update with
append/replace semantics keyed by type, applied to any status, leaves the
number of entries of every other type as it was and makes the number of
entries of its own type one, or what it was when that was more. So in every
status built from the zero value by such updates each condition type has at
most one entry in `Conditions`: exactly one when some update had that type
and none otherwise, and right after an update the entry of its type is the
condition of that update. -/
theorem conditions_at_most_one_per_type {X : External}
    (s : CredentialsRequestStatus X)
    (updates : List (CredentialsRequestCondition X)) (c : CredentialsRequestCondition X)
    (t : CredentialsRequestConditionType) :
    (((s.setCondition c).conditionsOfType t).length =
      if c.Type_ = t then max 1 (s.conditionsOfType t).length
      else (s.conditionsOfType t).length) ∧
    (((updates.foldl CredentialsRequestStatus.setCondition
        (CredentialsRequestStatus.zero X)).conditionsOfType t).length ≤ 1) ∧
    ((((updates.foldl CredentialsRequestStatus.setCondition
        (CredentialsRequestStatus.zero X)).conditionsOfType t).length = 1) ↔
      ∃ u ∈ updates, u.Type_ = t) ∧
    (((updates.foldl CredentialsRequestStatus.setCondition
        (CredentialsRequestStatus.zero X)).setCondition c).conditionsOfType c.Type_ = [c]) := by
  have hzero : (CredentialsRequestStatus.zero X).conditions = [] := rfl
  have hcount := fun t' => foldl_setCondition_count updates
    ([] : List (CredentialsRequestCondition X)) t' (by simp)
  refine ⟨?_, ?_, ?_, ?_⟩
  · unfold CredentialsRequestStatus.conditionsOfType
    have hstep : (s.setCondition c).conditions = setCondition s.conditions c := rfl
    rw [hstep]
    exact setCondition_count s.conditions c t
  · unfold CredentialsRequestStatus.conditionsOfType
    rw [foldl_status_conditions, hzero]
    exact (hcount t).1
  · unfold CredentialsRequestStatus.conditionsOfType
    rw [foldl_status_conditions, hzero, (hcount t).2]
    simp
  · unfold CredentialsRequestStatus.conditionsOfType
    have hset : ((updates.foldl CredentialsRequestStatus.setCondition
        (CredentialsRequestStatus.zero X)).setCondition c).conditions
        = setCondition (updates.foldl setCondition []) c := by
      rw [← hzero, ← foldl_status_conditions]
      rfl
    rw [hset]
    exact setCondition_entry _ c (hcount c.Type_).1

end CloudCredential
